import Mathlib

/-!
Shallow embedding of the growth-metrics core of the Vehicle Registration
Dashboard repository, covering `data_processing.py` (class
`VehicleDataProcessor`) and `database.py` (class `VehicleDatabase`).

Modelling conventions:
* A pandas DataFrame / SQLite table of registration rows is a `List RegRecord`.
* Real-number arithmetic performed on Python/SQLite floats is embedded as
  exact rational arithmetic (`ℚ`).  The two engines round differently:
  pandas/numpy `.round(2)` rounds half to even (`round2pd`), SQLite's
  `ROUND(x, 2)` rounds half away from zero (`round2sql`); both are embedded
  with their own mode.  Pandas produces the IEEE special values `inf` and
  `NaN` on division by zero and on missing data; these are embedded
  explicitly by the inductive type `PdVal` (pandas treats `NaN` as null).
* `groupby` / `GROUP BY` is embedded as `aggregate`: one entry per distinct
  key with summed registrations (entry order is immaterial and is normalised
  wherever the source sorts; SQL `GROUP BY` output order is unspecified).
* Sorting (`sort_values`, `ORDER BY`) is embedded by `List.insertionSort`
  with the comparison the source uses.  String comparison is embedded
  structurally (`strLe`): lexicographic by Unicode code point, the order both
  Python and SQLite (BINARY collation) use for the strings involved.
-/

/-- One raw registration row: the schema of the `vehicle_registrations`
table / the CSV ledger.  The `date` column is carried by the repository but
never used by the computations modelled here, so it is omitted. -/
structure RegRecord where
  manufacturer : String
  category : String
  year : ℤ
  quarter : ℤ
  registrations : ℕ
deriving DecidableEq, Repr

/-- Grouping key `(manufacturer, vehicle_category, year, quarter)`. -/
structure PKey where
  manufacturer : String
  category : String
  year : ℤ
  quarter : ℤ
deriving DecidableEq, Repr

/-- Lexicographic comparison of character lists by Unicode code point. -/
def listCharLe : List Char → List Char → Bool
  | [], _ => true
  | _ :: _, [] => false
  | a :: as, b :: bs =>
      if a.toNat < b.toNat then true
      else if b.toNat < a.toNat then false
      else listCharLe as bs

/-- String comparison: lexicographic by code point (Python `<=` on `str`,
SQLite BINARY collation). -/
def strLe (a b : String) : Bool := listCharLe a.data b.data

def keyOf (r : RegRecord) : PKey :=
  ⟨r.manufacturer, r.category, r.year, r.quarter⟩

/-- The distinct grouping keys of a ledger. -/
def keysOf (l : List RegRecord) : List PKey :=
  (l.map keyOf).dedup

/-- Sum of `registrations` over all rows with the given key
(the `SUM(registrations)` / `groupby(...)['registrations'].sum()` value). -/
def sumFor (l : List RegRecord) (k : PKey) : ℕ :=
  ((l.filter (fun r => keyOf r = k)).map RegRecord.registrations).sum

/-- `GROUP BY manufacturer, vehicle_category, year, quarter` with summed
registrations: the PeriodPoint set, one entry per distinct key. -/
def aggregate (l : List RegRecord) : List (PKey × ℕ) :=
  (keysOf l).map (fun k => (k, sumFor l k))

/-- Aggregated registrations of period `k`, if the ledger has any row for it
(the unique matching row of a join against the grouped table). -/
def periodLookup (l : List RegRecord) (k : PKey) : Option ℕ :=
  if k ∈ keysOf l then some (sumFor l k) else none

/-- Key order used by pandas when sorting grouped rows by
`(manufacturer, vehicle_category, year, quarter)` ascending. -/
def pkLe (a b : PKey) : Bool :=
  if a.manufacturer ≠ b.manufacturer then strLe a.manufacturer b.manufacturer
  else if a.category ≠ b.category then strLe a.category b.category
  else if a.year ≠ b.year then a.year ≤ b.year
  else a.quarter ≤ b.quarter

def pkRowLeR (a b : PKey × ℕ) : Prop := pkLe a.1 b.1 = true

instance : DecidableRel pkRowLeR :=
  fun a b => inferInstanceAs (Decidable (pkLe a.1 b.1 = true))

/-- The grouped table in pandas key order (`groupby` sorts keys ascending;
`calculate_qoq_growth` additionally applies the same `sort_values`). -/
def aggregateSorted (l : List RegRecord) : List (PKey × ℕ) :=
  (aggregate l).insertionSort pkRowLeR

/-- YoY predecessor key: same series and quarter, previous year
(`prev_year = year - 1` in `calculate_yoy_growth`; join condition
`current.year = previous.year + 1 AND current.quarter = previous.quarter`
in `get_yoy_growth_data`). -/
def yoyPrev (k : PKey) : PKey :=
  { k with year := k.year - 1 }

/-- QoQ predecessor key of `calculate_qoq_growth`: `prev_quarter = quarter-1`,
same year, except quarter 1 maps to quarter 4 of the previous year. -/
def qoqPrevMem (k : PKey) : PKey :=
  if k.quarter = 1 then { k with year := k.year - 1, quarter := 4 }
  else { k with quarter := k.quarter - 1 }

/-- The `LEFT JOIN` condition of `get_yoy_growth_data` between the current
grouped row `c` and a candidate previous row `p`. -/
def yoyJoinSQL (c p : PKey) : Prop :=
  c.manufacturer = p.manufacturer ∧ c.category = p.category ∧
    c.year = p.year + 1 ∧ c.quarter = p.quarter

/-- The `LEFT JOIN` condition of `get_qoq_growth_data` between the current
grouped row `c` and a candidate previous row `p`. -/
def qoqJoinSQL (c p : PKey) : Prop :=
  c.manufacturer = p.manufacturer ∧ c.category = p.category ∧
    ((c.year = p.year ∧ c.quarter = p.quarter + 1) ∨
     (c.year = p.year + 1 ∧ c.quarter = 1 ∧ p.quarter = 4))

/-- Round to the nearest integer, ties to the even neighbour — the rounding
mode of numpy/pandas `.round` (banker's rounding). -/
def roundHalfEven (q : ℚ) : ℤ :=
  if q - (⌊q⌋ : ℚ) < 1/2 then ⌊q⌋
  else if 1/2 < q - (⌊q⌋ : ℚ) then ⌊q⌋ + 1
  else if ⌊q⌋ % 2 = 0 then ⌊q⌋ else ⌊q⌋ + 1

/-- Round to the nearest integer, ties away from zero — the rounding mode of
SQLite's `ROUND`. -/
def roundHalfAway (q : ℚ) : ℤ :=
  if 0 ≤ q then ⌊q + 1/2⌋ else -⌊-q + 1/2⌋

/-- Pandas `.round(2)`: round to 2 decimal places, half to even. -/
def round2pd (q : ℚ) : ℚ :=
  (roundHalfEven (q * 100) : ℚ) / 100

/-- SQLite `ROUND(x, 2)`: round to 2 decimal places, half away from zero. -/
def round2sql (q : ℚ) : ℚ :=
  (roundHalfAway (q * 100) : ℚ) / 100

/-- A pandas float cell: a finite value, `NaN` (which pandas treats as null /
missing), or `+inf` (which arises from division of a positive value by zero;
registrations are non-negative, so `-inf` cannot arise here). -/
inductive PdVal where
  | num : ℚ → PdVal
  | nan : PdVal
  | inf : PdVal
deriving DecidableEq, Repr

/-- The growth column of `calculate_yoy_growth` / `calculate_qoq_growth`:
`((curr - prev) / prev * 100).round(2)` where `prev` is the left-merged
previous-period registrations column (`NaN` when the merge found no match).
There is no zero guard: `prev = 0` yields `inf` (for `curr > 0`) or `NaN`
(for `curr = 0`) by IEEE division, and `.round(2)` (half to even) preserves
both. -/
def pdGrowth (curr : ℕ) (prev : Option ℕ) : PdVal :=
  match prev with
  | none => PdVal.nan
  | some p =>
      if p = 0 then (if curr = 0 then PdVal.nan else PdVal.inf)
      else PdVal.num (round2pd (((curr : ℚ) - (p : ℚ)) / (p : ℚ) * 100))

/-- An output row of the in-memory growth computation: columns
`manufacturer, vehicle_category, year, quarter, registrations, *_growth`. -/
structure MemRow where
  key : PKey
  registrations : ℕ
  growth : PdVal
deriving DecidableEq, Repr

/-- `VehicleDataProcessor.calculate_yoy_growth` on a loaded ledger: group and
sum, left-merge each grouped row with its previous-year row, compute the
rounded percent change.  Every grouped row yields exactly one output row. -/
def calculate_yoy_growth (l : List RegRecord) : List MemRow :=
  (aggregateSorted l).map
    (fun ks => ⟨ks.1, ks.2, pdGrowth ks.2 (periodLookup l (yoyPrev ks.1))⟩)

/-- `VehicleDataProcessor.calculate_qoq_growth`: same shape with the
quarter-wraparound predecessor key. -/
def calculate_qoq_growth (l : List RegRecord) : List MemRow :=
  (aggregateSorted l).map
    (fun ks => ⟨ks.1, ks.2, pdGrowth ks.2 (periodLookup l (qoqPrevMem ks.1))⟩)

/-- A row of the SQL CTE `yoy_calculations` / `qoq_calculations`:
key, aggregated registrations, previous-period registrations (NULL when the
LEFT JOIN found no match), and the CASE-computed growth (NULL unless the
previous registrations are `> 0`). -/
structure DbRow where
  key : PKey
  registrations : ℕ
  prev : Option ℕ
  growth : Option ℚ
deriving DecidableEq, Repr

/-- `CASE WHEN previous.registrations > 0 THEN
ROUND((current.registrations - previous.registrations) * 100.0 /
previous.registrations, 2) ELSE NULL END`.  A NULL `previous.registrations`
(no join match) fails the `> 0` test and also yields NULL; `ROUND` rounds
half away from zero. -/
def sqlGrowthCase (curr : ℕ) (prev : Option ℕ) : Option ℚ :=
  match prev with
  | none => none
  | some p =>
      if 0 < p then some (round2sql (((curr : ℚ) - (p : ℚ)) * 100 / (p : ℚ)))
      else none

/-- `ORDER BY year DESC, quarter DESC, growth DESC` (all rows surviving the
terminal filter have non-NULL growth; SQLite sorts NULLs last under DESC). -/
def dbRowLe (a b : DbRow) : Bool :=
  if a.key.year ≠ b.key.year then b.key.year ≤ a.key.year
  else if a.key.quarter ≠ b.key.quarter then b.key.quarter ≤ a.key.quarter
  else match a.growth, b.growth with
       | some x, some y => y ≤ x
       | some _, none => true
       | none, some _ => false
       | none, none => true

def dbRowLeR (a b : DbRow) : Prop := dbRowLe a b = true

instance : DecidableRel dbRowLeR :=
  fun a b => inferInstanceAs (Decidable (dbRowLe a b = true))

/-- The CTE `yoy_calculations` before the terminal filter. -/
def yoy_calculations (l : List RegRecord) : List DbRow :=
  (aggregate l).map
    (fun ks => ⟨ks.1, ks.2, periodLookup l (yoyPrev ks.1),
                sqlGrowthCase ks.2 (periodLookup l (yoyPrev ks.1))⟩)

/-- `VehicleDatabase.get_yoy_growth_data`:
`SELECT * FROM yoy_calculations WHERE yoy_growth IS NOT NULL ORDER BY ...`. -/
def get_yoy_growth_data (l : List RegRecord) : List DbRow :=
  ((yoy_calculations l).filter (fun r => r.growth ≠ none)).insertionSort
    dbRowLeR

/-- The previous-key candidates of the QoQ `LEFT JOIN` for a current grouped
key: `current.year = previous.year AND current.quarter = previous.quarter+1`
matches the same-year (quarter−1) key for every current quarter — including
a quarter-0 key when the current quarter is 1 — and the second disjunct
additionally matches (year−1, quarter 4) when the current quarter is 1.
This is exactly the set of keys satisfying `qoqJoinSQL` (proved below). -/
def qoqSqlPrevKeys (k : PKey) : List PKey :=
  if k.quarter = 1 then
    [{ k with quarter := k.quarter - 1 },
     { k with year := k.year - 1, quarter := 4 }]
  else [{ k with quarter := k.quarter - 1 }]

/-- The CTE `qoq_calculations` before the terminal filter: a `LEFT JOIN`
emits one row per matching previous grouped row (grouped keys are unique,
so one row per present candidate key), and a single all-NULL-previous row
when no candidate is present. -/
def qoq_calculations (l : List RegRecord) : List DbRow :=
  (aggregate l).flatMap
    (fun ks =>
      match (qoqSqlPrevKeys ks.1).filterMap (periodLookup l) with
      | [] => [⟨ks.1, ks.2, none, none⟩]
      | v :: vs =>
          (v :: vs).map
            (fun w => ⟨ks.1, ks.2, some w, sqlGrowthCase ks.2 (some w)⟩))

/-- `VehicleDatabase.get_qoq_growth_data`. -/
def get_qoq_growth_data (l : List RegRecord) : List DbRow :=
  ((qoq_calculations l).filter (fun r => r.growth ≠ none)).insertionSort
    dbRowLeR

/-- A row of the `growth_metrics` table. -/
structure GrowthMetricRow where
  key : PKey
  registrations : Option ℕ
  yoy_growth : Option ℚ
  qoq_growth : Option ℚ
deriving DecidableEq, Repr

/-- The mutable SQLite database state: the two tables of `init_database`. -/
structure DBState where
  vehicle_registrations : List RegRecord
  growth_metrics : List GrowthMetricRow
deriving DecidableEq, Repr

/-- `VehicleDatabase.insert_registration_data`: `DELETE FROM
vehicle_registrations`, then append the DataFrame rows; returns `len(df)`. -/
def insert_registration_data (st : DBState) (df : List RegRecord) :
    DBState × ℕ :=
  let cleared : DBState := { st with vehicle_registrations := [] }
  let loaded : DBState :=
    { cleared with
        vehicle_registrations := cleared.vehicle_registrations ++ df }
  (loaded, df.length)

/-- The distinct manufacturers of a ledger. -/
def manufacturersOf (l : List RegRecord) : List String :=
  (l.map RegRecord.manufacturer).dedup

/-- Total registrations of one manufacturer over the whole ledger
(all categories, all periods). -/
def totalFor (l : List RegRecord) (m : String) : ℕ :=
  ((l.filter (fun r => r.manufacturer = m)).map RegRecord.registrations).sum

/-- `COUNT(DISTINCT vehicle_category)` for one manufacturer. -/
def categoriesServed (l : List RegRecord) (m : String) : ℕ :=
  ((l.filter (fun r => r.manufacturer = m)).map RegRecord.category).dedup.length

/-- `GROUP BY manufacturer` with summed registrations and distinct-category
count. -/
def manufacturerTotals (l : List RegRecord) : List (String × ℕ × ℕ) :=
  (manufacturersOf l).map (fun m => (m, totalFor l m, categoriesServed l m))

/-- `ORDER BY registrations DESC` on the per-manufacturer totals. -/
def totalsDescLeR (a b : String × ℕ × ℕ) : Prop := b.2.1 ≤ a.2.1

instance : DecidableRel totalsDescLeR :=
  fun a b => inferInstanceAs (Decidable (b.2.1 ≤ a.2.1))

/-- `VehicleDatabase.get_top_performers` with `metric='registrations'`:
`SELECT manufacturer, SUM(registrations), COUNT(DISTINCT vehicle_category)
FROM vehicle_registrations GROUP BY manufacturer
ORDER BY registrations DESC LIMIT ?`. -/
def get_top_performers (l : List RegRecord) (limit : ℕ) :
    List (String × ℕ × ℕ) :=
  ((manufacturerTotals l).insertionSort totalsDescLeR).take limit

/-- `self.df['year'].max()` as a `WithBot ℤ` (`⊥` on an empty ledger, a case
the source reaches only behind its data-loaded guard). -/
def latestYear (l : List RegRecord) : WithBot ℤ :=
  (l.map RegRecord.year).maximum

/-- `self.df[self.df['year'] == latest_year]['quarter'].max()`. -/
def latestQuarter (l : List RegRecord) : WithBot ℤ :=
  ((l.filter (fun r => (r.year : WithBot ℤ) = latestYear l)).map
    RegRecord.quarter).maximum

/-- `latest_data`: the rows of the single latest `(year, quarter)` period. -/
def latestData (l : List RegRecord) : List RegRecord :=
  l.filter (fun r => (r.year : WithBot ℤ) = latestYear l ∧
                     (r.quarter : WithBot ℤ) = latestQuarter l)

def sumDescLeR (a b : String × ℕ) : Prop := b.2 ≤ a.2

instance : DecidableRel sumDescLeR :=
  fun a b => inferInstanceAs (Decidable (b.2 ≤ a.2))

/-- Per-manufacturer sums of a row set, value descending (pandas
`groupby('manufacturer')['registrations'].sum()` then
`sort_values('registrations', ascending=False)`). -/
def manufacturerSumsDesc (rows : List RegRecord) : List (String × ℕ) :=
  ((manufacturersOf rows).map (fun m => (m, totalFor rows m))).insertionSort
    sumDescLeR

/-- `VehicleDataProcessor.get_top_performers` (in-memory): restrict to the
latest `(year, quarter)` period, sum registrations per manufacturer, sort
descending, `head(n)`. -/
def get_top_performers_mem (l : List RegRecord) (n : ℕ) :
    List (String × ℕ) :=
  (manufacturerSumsDesc (latestData l)).take n

/-!
Embedding of `VehicleDataProcessor.generate_insights`.  The input is the
repository's ledger schema (`manufacturer`, `vehicle_category`, `year`,
`quarter`, `registrations`): the schema-normalisation branch taken is the
`elif 'year' in ... and 'quarter' in ...` one, which builds the quarter
label `f"{year} Q{quarter}"`, and the grouping level probe finds
`'manufacturer'`.  Python float formatting `f"{x:.1f}"` is embedded by
`fmt1` (nearest tenth) and `"inf"` for infinity.  Every possible runtime
exception of the Python body is modelled by the `Except` result of
`generate_insights_core`; the typed body itself raises nowhere.
-/

/-- `f"{x:.1f}"` on a finite float, over exact rationals (Python float
formatting rounds half to even). -/
def fmt1 (q : ℚ) : String :=
  let n : ℤ := roundHalfEven (q * 10)
  (if n < 0 then "-" else "") ++
    toString (n.natAbs / 10) ++ "." ++ toString (n.natAbs % 10)

/-- `f"{x:.1f}"` on a pandas float cell. -/
def pdFmt1 : PdVal → String
  | .num q => fmt1 q
  | .inf => "inf"
  | .nan => "nan"

/-- `pct_change() * 100.0` against an optional previous value: `NaN` when
there is no previous row, IEEE division otherwise (no rounding here). -/
def pdPct (curr : ℕ) (prev : Option ℕ) : PdVal :=
  match prev with
  | none => PdVal.nan
  | some p =>
      if p = 0 then (if curr = 0 then PdVal.nan else PdVal.inf)
      else PdVal.num (((curr : ℚ) - (p : ℚ)) / (p : ℚ) * 100)

/-- `pct_change()` between two consecutive concrete values (as a fraction,
not a percentage). -/
def pdPctFrac (prev curr : ℕ) : PdVal :=
  if prev = 0 then (if curr = 0 then PdVal.nan else PdVal.inf)
  else PdVal.num (((curr : ℚ) - (prev : ℚ)) / (prev : ℚ))

def pdAbs : PdVal → PdVal
  | .num q => .num |q|
  | .inf => .inf
  | .nan => .nan

/-- Value of a NaN-free pandas cell. -/
def pdToQ : PdVal → ℚ
  | .num q => q
  | _ => 0

/-- `Series.mean()` of a NaN-free series (the source calls it after
`.dropna()`): `NaN` on an empty series, `inf` if any entry is `inf`. -/
def pdMean (xs : List PdVal) : PdVal :=
  if xs.length = 0 then .nan
  else if xs.contains PdVal.inf then .inf
  else .num ((xs.map pdToQ).sum / (xs.length : ℚ))

/-- `vol > 20` on a pandas float (`NaN > 20` is `False`). -/
def pdGtTwenty : PdVal → Bool
  | .num q => 20 < q
  | .inf => true
  | .nan => false

/-- Descending order on growth cells as `sort_values(ascending=False)`
arranges them: `inf` first, finite values by value, `NaN` last. -/
def pdDescLe (a b : PdVal) : Bool :=
  match a, b with
  | .inf, _ => true
  | .num _, .inf => false
  | .num x, .num y => y ≤ x
  | .nan, .nan => true
  | .nan, _ => false
  | _, .nan => true

/-- The quarter label `working['year'].astype(str) + ' Q' + quarter str`. -/
def qlabel (r : RegRecord) : String :=
  toString r.year ++ " Q" ++ toString r.quarter

/-- `(manufacturer, year)` ascending, the `agg.sort_values([level,'year'])`
order. -/
def myKeyLe (a b : String × ℤ) : Bool :=
  if a.1 ≠ b.1 then strLe a.1 b.1 else a.2 ≤ b.2

def myKeyLeR (a b : String × ℤ) : Prop := myKeyLe a b = true

instance : DecidableRel myKeyLeR :=
  fun a b => inferInstanceAs (Decidable (myKeyLe a b = true))

/-- The distinct `(manufacturer, year)` keys of the working set. -/
def mYearKeys (l : List RegRecord) : List (String × ℤ) :=
  (l.map (fun r => (r.manufacturer, r.year))).dedup

/-- `groupby([level, 'year'])['registrations'].sum()` for one key. -/
def mYearSum (l : List RegRecord) (m : String) (y : ℤ) : ℕ :=
  ((l.filter (fun r => r.manufacturer = m ∧ r.year = y)).map
    RegRecord.registrations).sum

/-- `agg`: per-(manufacturer, year) sums, sorted by `(level, year)`. -/
def aggMY (l : List RegRecord) : List (String × ℤ × ℕ) :=
  ((mYearKeys l).insertionSort myKeyLeR).map
    (fun k => (k.1, k.2, mYearSum l k.1 k.2))

/-- The previous grouped value for `pct_change` within one manufacturer's
year-ascending series: the sum at the greatest year strictly before `y`
among that manufacturer's rows (chronologically preceding row of the sorted
group, which need not be the calendar-adjacent year). -/
def insightPrevValue (l : List RegRecord) (m : String) (y : ℤ) : Option ℕ :=
  match ((l.filter (fun r => r.manufacturer = m ∧ r.year < y)).map
          RegRecord.year).maximum with
  | none => none
  | some py => some (mYearSum l m py)

/-- A row of `agg` with its `yoy_growth` column. -/
structure InsightRow where
  manufacturer : String
  year : ℤ
  registrations : ℕ
  yoy_growth : PdVal
deriving DecidableEq, Repr

def aggWithYoY (l : List RegRecord) : List InsightRow :=
  (aggMY l).map
    (fun t => ⟨t.1, t.2.1, t.2.2, pdPct t.2.2 (insightPrevValue l t.1 t.2.1)⟩)

/-- `agg['year'].max()`. -/
def insightLatestYear (l : List RegRecord) : WithBot ℤ :=
  ((aggMY l).map (fun t => t.2.1)).maximum

/-- `latest_slice = agg[agg['year'] == latest_year]`. -/
def latestSlice (l : List RegRecord) : List InsightRow :=
  (aggWithYoY l).filter (fun t => (t.year : WithBot ℤ) = insightLatestYear l)

def growerLeR (a b : InsightRow) : Prop :=
  pdDescLe a.yoy_growth b.yoy_growth = true

instance : DecidableRel growerLeR :=
  fun a b => inferInstanceAs (Decidable (pdDescLe a.yoy_growth b.yoy_growth = true))

/-- `top_yoy`: latest slice sorted by YoY descending, NaN rows dropped,
first three (`sort_values` places NaN last, so dropping before or after
sorting selects the same rows). -/
def topYoY (l : List RegRecord) : List InsightRow :=
  (((latestSlice l).filter
      (fun t => t.yoy_growth ≠ PdVal.nan)).insertionSort growerLeR).take 3

/-- The top-growers insight (step: `if not top_yoy.empty`). -/
def topGrowersInsight (l : List RegRecord) : List String :=
  if topYoY l = [] then []
  else
    match insightLatestYear l with
    | none => []
    | some y =>
        ["Top YoY growers in " ++ toString y ++ ": " ++
          String.intercalate ", "
            ((topYoY l).map
              (fun t => t.manufacturer ++ " (" ++ pdFmt1 t.yoy_growth ++ "%)")) ++
          "."]

/-- The concentration insight: `hhi_like = (share ** 2).sum()` over the
latest slice, where `share = registrations / total_latest if total_latest
else 0`; threshold `>= 0.20`. -/
def concentrationInsight (l : List RegRecord) : List String :=
  let slice := latestSlice l
  let total : ℕ := (slice.map InsightRow.registrations).sum
  let hhi : ℚ :=
    if total = 0 then 0
    else (slice.map (fun t => ((t.registrations : ℚ) / (total : ℚ)) ^ 2)).sum
  if (1 / 5 : ℚ) ≤ hhi then
    ["Market looks concentrated in the latest year (high concentration index)."]
  else
    ["Market looks relatively competitive in the latest year (low concentration index)."]

def intLeR (a b : ℤ) : Prop := a ≤ b

instance : DecidableRel intLeR := fun a b => Int.decLe a b

/-- The distinct years of the working set, ascending
(`groupby('year')` then `sort_values('year')`). -/
def yearsSorted (l : List RegRecord) : List ℤ :=
  ((l.map RegRecord.year).dedup).insertionSort intLeR

/-- `groupby('year')['registrations'].sum()` for one year. -/
def yearSum (l : List RegRecord) (y : ℤ) : ℕ :=
  ((l.filter (fun r => r.year = y)).map RegRecord.registrations).sum

/-- The overall-trend insight: compare the last two rows of the by-year
series (`iloc[-2]`, `iloc[-1]`); `denom = prev if prev != 0 else 1`. -/
def overallTrendInsight (l : List RegRecord) : List String :=
  match (yearsSorted l).reverse with
  | cy :: py :: _ =>
      let curr := yearSum l cy
      let prev := yearSum l py
      let denom : ℚ := if prev ≠ 0 then (prev : ℚ) else 1
      ["Overall YoY change latest year: " ++
        fmt1 (((curr : ℚ) - (prev : ℚ)) / denom * 100) ++ "%."]
  | _ => []

def strLeR (a b : String) : Prop := strLe a b = true

instance : DecidableRel strLeR :=
  fun a b => inferInstanceAs (Decidable (strLe a b = true))

/-- The distinct quarter labels, in lexical (string) order — the order
`groupby('quarter')` on the label column produces. -/
def labelsSorted (l : List RegRecord) : List String :=
  ((l.map qlabel).dedup).insertionSort strLeR

/-- `groupby('quarter')['registrations'].sum()` for one label. -/
def labelSum (l : List RegRecord) (s : String) : ℕ :=
  ((l.filter (fun r => qlabel r = s)).map RegRecord.registrations).sum

/-- Consecutive `pct_change` values of a concrete series (the leading `NaN`
of `pct_change` corresponds to no pair and is dropped by `.dropna()`). -/
def consecutivePcts (xs : List ℕ) : List PdVal :=
  (xs.zip xs.tail).map (fun pc => pdPctFrac pc.1 pc.2)

/-- The volatility insight, emitted when at least 4 distinct quarter labels
exist: `vol = pct_change().abs().dropna().mean() * 100.0`, volatile iff
`vol > 20`. -/
def volatilityInsight (l : List RegRecord) : List String :=
  let labels := labelsSorted l
  if 4 ≤ labels.length then
    let sums := labels.map (labelSum l)
    let kept := ((consecutivePcts sums).map pdAbs).filter
      (fun v => v ≠ PdVal.nan)
    let vol : PdVal :=
      match pdMean kept with
      | .num q => .num (q * 100)
      | v => v
    if pdGtTwenty vol then
      ["Quarterly growth is volatile (>20% avg absolute change). Consider risk in short-term projections."]
    else
      ["Quarterly growth is relatively stable (<20% avg absolute change)."]
  else []

/-- The `try`-block body of `generate_insights` on a non-empty working set.
The grouping level is `'manufacturer'` (always present in the embedded
schema), so the level-based insights are always attempted and the
concentration insight is always emitted; the final `if not insights`
fallback is retained from the source. -/
def generate_insights_body (l : List RegRecord) : List String :=
  let ins :=
    topGrowersInsight l ++ concentrationInsight l ++
      overallTrendInsight l ++ volatilityInsight l
  if ins = [] then
    ["Growth is steady with no standout outliers in the selected view."]
  else ins

/-- The guarded body: any Python exception inside the `try` block is
modelled as `.error`; the typed embedding raises nowhere, so the result is
always `.ok`. -/
def generate_insights_core (l : List RegRecord) :
    Except String (List String) :=
  Except.ok (generate_insights_body l)

/-- `VehicleDataProcessor.generate_insights`: `none` models an absent
working frame (`self.df is None`), `some []` an empty one; the `except`
branch degrades to the single diagnostic insight. -/
def generate_insights (df : Option (List RegRecord)) : List String :=
  match df with
  | none => ["No data available for analysis."]
  | some l =>
      if l = [] then ["No data available for analysis."]
      else
        match generate_insights_core l with
        | .ok ins => ins
        | .error _ => ["Could not generate insights for the current selection."]

/-! ### Shared lemmas about the aggregation and the two growth pipelines -/

lemma mem_aggregate_iff {l : List RegRecord} {k : PKey} {s : ℕ} :
    (k, s) ∈ aggregate l ↔ k ∈ keysOf l ∧ s = sumFor l k := by
  constructor
  · intro h
    rcases List.mem_map.1 h with ⟨k', hk', he⟩
    cases he
    exact ⟨hk', rfl⟩
  · rintro ⟨hk, rfl⟩
    exact List.mem_map.2 ⟨k, hk, rfl⟩

lemma aggregate_map_fst (l : List RegRecord) :
    (aggregate l).map Prod.fst = keysOf l := by
  simp [aggregate, List.map_map]
  exact List.map_id _

lemma mem_aggregateSorted_iff {l : List RegRecord} {x : PKey × ℕ} :
    x ∈ aggregateSorted l ↔ x ∈ aggregate l :=
  List.mem_insertionSort pkRowLeR

lemma periodLookup_eq_some_iff {l : List RegRecord} {k : PKey} {s : ℕ} :
    periodLookup l k = some s ↔ k ∈ keysOf l ∧ s = sumFor l k := by
  unfold periodLookup
  by_cases h : k ∈ keysOf l <;> simp [h, eq_comm]

lemma mem_calculate_yoy_growth_iff {l : List RegRecord} {r : MemRow} :
    r ∈ calculate_yoy_growth l ↔
      ∃ ks ∈ aggregate l,
        r = ⟨ks.1, ks.2, pdGrowth ks.2 (periodLookup l (yoyPrev ks.1))⟩ := by
  unfold calculate_yoy_growth
  rw [List.mem_map]
  constructor
  · rintro ⟨ks, hks, rfl⟩
    exact ⟨ks, mem_aggregateSorted_iff.1 hks, rfl⟩
  · rintro ⟨ks, hks, rfl⟩
    exact ⟨ks, mem_aggregateSorted_iff.2 hks, rfl⟩

lemma mem_calculate_qoq_growth_iff {l : List RegRecord} {r : MemRow} :
    r ∈ calculate_qoq_growth l ↔
      ∃ ks ∈ aggregate l,
        r = ⟨ks.1, ks.2, pdGrowth ks.2 (periodLookup l (qoqPrevMem ks.1))⟩ := by
  unfold calculate_qoq_growth
  rw [List.mem_map]
  constructor
  · rintro ⟨ks, hks, rfl⟩
    exact ⟨ks, mem_aggregateSorted_iff.1 hks, rfl⟩
  · rintro ⟨ks, hks, rfl⟩
    exact ⟨ks, mem_aggregateSorted_iff.2 hks, rfl⟩

lemma mem_get_yoy_growth_data_iff {l : List RegRecord} {r : DbRow} :
    r ∈ get_yoy_growth_data l ↔
      (∃ ks ∈ aggregate l,
        r = ⟨ks.1, ks.2, periodLookup l (yoyPrev ks.1),
             sqlGrowthCase ks.2 (periodLookup l (yoyPrev ks.1))⟩) ∧
      r.growth ≠ none := by
  unfold get_yoy_growth_data yoy_calculations
  rw [List.mem_insertionSort, List.mem_filter]
  simp only [List.mem_map, decide_eq_true_eq]
  tauto

lemma mem_qoqSqlPrevKeys_iff {c p : PKey} :
    p ∈ qoqSqlPrevKeys c ↔ qoqJoinSQL c p := by
  obtain ⟨cm, cc, cy, cq⟩ := c
  obtain ⟨pm, pc, py, pq⟩ := p
  unfold qoqSqlPrevKeys qoqJoinSQL
  dsimp only
  by_cases h : cq = 1
  · rw [if_pos h]
    simp only [List.mem_cons, List.not_mem_nil, or_false, PKey.mk.injEq]
    constructor
    · rintro (⟨e1, e2, e3, e4⟩ | ⟨e1, e2, e3, e4⟩)
      · exact ⟨e1.symm, e2.symm, Or.inl ⟨e3.symm, by omega⟩⟩
      · exact ⟨e1.symm, e2.symm, Or.inr ⟨by omega, h, by omega⟩⟩
    · rintro ⟨hm, hcat, ⟨hy, hq⟩ | ⟨hy, hq1, hq4⟩⟩
      · exact Or.inl ⟨hm.symm, hcat.symm, hy.symm, by omega⟩
      · exact Or.inr ⟨hm.symm, hcat.symm, by omega, by omega⟩
  · rw [if_neg h]
    simp only [List.mem_cons, List.not_mem_nil, or_false, PKey.mk.injEq]
    constructor
    · rintro ⟨e1, e2, e3, e4⟩
      exact ⟨e1.symm, e2.symm, Or.inl ⟨e3.symm, by omega⟩⟩
    · rintro ⟨hm, hcat, ⟨hy, hq⟩ | ⟨hy, hq1, hq4⟩⟩
      · exact ⟨hm.symm, hcat.symm, hy.symm, by omega⟩
      · exact absurd hq1 h

lemma qoqPrevMem_mem_qoqSqlPrevKeys (k : PKey) :
    qoqPrevMem k ∈ qoqSqlPrevKeys k := by
  unfold qoqPrevMem qoqSqlPrevKeys
  by_cases h : k.quarter = 1
  · rw [if_pos h, if_pos h]
    exact List.mem_cons.2 (Or.inr (List.mem_cons.2 (Or.inl rfl)))
  · rw [if_neg h, if_neg h]
    exact List.mem_cons.2 (Or.inl rfl)

lemma mem_qoq_calculations_of_lookup {l : List RegRecord} {ks : PKey × ℕ}
    {p : PKey} {v : ℕ} (hks : ks ∈ aggregate l) (hp : p ∈ qoqSqlPrevKeys ks.1)
    (hv : periodLookup l p = some v) :
    DbRow.mk ks.1 ks.2 (some v) (sqlGrowthCase ks.2 (some v)) ∈
      qoq_calculations l := by
  unfold qoq_calculations
  rw [List.mem_flatMap]
  refine ⟨ks, hks, ?_⟩
  have hvm : v ∈ (qoqSqlPrevKeys ks.1).filterMap (periodLookup l) :=
    List.mem_filterMap.2 ⟨p, hp, hv⟩
  cases hms : (qoqSqlPrevKeys ks.1).filterMap (periodLookup l) with
  | nil =>
      rw [hms] at hvm
      exact absurd hvm (List.not_mem_nil v)
  | cons a as =>
      rw [hms] at hvm
      simp only [hms]
      exact List.mem_map.2 ⟨v, hvm, rfl⟩

lemma mem_get_qoq_of_calc {l : List RegRecord} {r : DbRow}
    (h : r ∈ qoq_calculations l) (hg : r.growth ≠ none) :
    r ∈ get_qoq_growth_data l := by
  unfold get_qoq_growth_data
  rw [List.mem_insertionSort, List.mem_filter]
  exact ⟨h, by simpa using hg⟩

lemma sqlGrowthCase_of_pos {c p : ℕ} (hp : 0 < p) :
    sqlGrowthCase c (some p) =
      some (round2sql (((c : ℚ) - (p : ℚ)) / (p : ℚ) * 100)) := by
  show (if 0 < p then some (round2sql (((c : ℚ) - (p : ℚ)) * 100 / (p : ℚ)))
        else none) = _
  rw [if_pos hp, ← div_mul_eq_mul_div]

lemma pdGrowth_of_pos {c p : ℕ} (hp : 0 < p) :
    pdGrowth c (some p) =
      PdVal.num (round2pd (((c : ℚ) - (p : ℚ)) / (p : ℚ) * 100)) := by
  show (if p = 0 then (if c = 0 then PdVal.nan else PdVal.inf)
        else PdVal.num (round2pd (((c : ℚ) - (p : ℚ)) / (p : ℚ) * 100))) = _
  rw [if_neg (Nat.pos_iff_ne_zero.1 hp)]

/-! ### The two rounding modes agree away from exact halves -/

lemma roundHalfEven_eq_roundHalfAway {x : ℚ} (h : x - (⌊x⌋ : ℚ) ≠ 1/2) :
    roundHalfEven x = roundHalfAway x := by
  have h0 : (⌊x⌋ : ℚ) ≤ x := Int.floor_le x
  have h1 : x < ⌊x⌋ + 1 := Int.lt_floor_add_one x
  unfold roundHalfEven roundHalfAway
  rcases lt_or_gt_of_ne h with hlt | hgt
  · rw [if_pos hlt]
    by_cases hq : 0 ≤ x
    · rw [if_pos hq]
      symm
      rw [Int.floor_eq_iff]
      constructor
      · linarith
      · linarith
    · rw [if_neg hq]
      have hf : ⌊-x + 1/2⌋ = -⌊x⌋ := by
        rw [Int.floor_eq_iff]
        constructor
        · push_cast
          linarith
        · push_cast
          linarith
      rw [hf, neg_neg]
  · rw [if_neg (by linarith : ¬ x - (⌊x⌋ : ℚ) < 1/2), if_pos hgt]
    by_cases hq : 0 ≤ x
    · rw [if_pos hq]
      symm
      rw [Int.floor_eq_iff]
      constructor
      · push_cast
        linarith
      · push_cast
        linarith
    · rw [if_neg hq]
      have hf : ⌊-x + 1/2⌋ = -(⌊x⌋ + 1) := by
        rw [Int.floor_eq_iff]
        constructor
        · push_cast
          linarith
        · push_cast
          linarith
      rw [hf, neg_neg]

lemma round2pd_eq_round2sql {q : ℚ} (h : q * 100 - (⌊q * 100⌋ : ℚ) ≠ 1/2) :
    round2pd q = round2sql q := by
  unfold round2pd round2sql
  rw [roundHalfEven_eq_roundHalfAway h]

/-- At the exact half 3.125 (ledger 32 → 33) pandas rounds to 3.12. -/
lemma round2pd_tie : round2pd (((33 : ℚ) - 32) / 32 * 100) = 312/100 := by
  have hx : (((33 : ℚ) - 32) / 32 * 100) * 100 = 625/2 := by norm_num
  unfold round2pd
  rw [hx]
  unfold roundHalfEven
  norm_num

/-- At the exact half 3.125 (ledger 32 → 33) SQLite rounds to 3.13. -/
lemma round2sql_tie : round2sql (((33 : ℚ) - 32) / 32 * 100) = 313/100 := by
  have hx : (((33 : ℚ) - 32) / 32 * 100) * 100 = 625/2 := by norm_num
  unfold round2sql
  rw [hx]
  unfold roundHalfAway
  norm_num

lemma round2pd_fifty : round2pd (((1500 : ℚ) - 1000) / 1000 * 100) = 50 := by
  have hx : (((1500 : ℚ) - 1000) / 1000 * 100) * 100 = 5000 := by norm_num
  unfold round2pd
  rw [hx]
  unfold roundHalfEven
  norm_num

lemma round2sql_fifty : round2sql (((1500 : ℚ) - 1000) / 1000 * 100) = 50 := by
  have hx : (((1500 : ℚ) - 1000) / 1000 * 100) * 100 = 5000 := by norm_num
  unfold round2sql
  rw [hx]
  unfold roundHalfAway
  norm_num

/-! ### Claim theorems -/

/-- C3: QoQ alignment uses as predecessor exactly quarter Q-1 of year Y when
Q ∈ {2,3,4}, and exactly quarter 4 of year Y-1 when Q = 1, under both
backends: the in-memory predecessor key `qoqPrevMem` satisfies both rules,
the SQL join condition holds of a candidate previous key (with quarters in
1..4) exactly when it is that key, and in particular (S, 2024, Q1) aligns to
(S, 2023, Q4) and to no other period. -/
theorem C3_qoq_alignment :
    (∀ k : PKey, k.quarter = 1 →
       qoqPrevMem k = ⟨k.manufacturer, k.category, k.year - 1, 4⟩) ∧
    (∀ k : PKey, 2 ≤ k.quarter → k.quarter ≤ 4 →
       qoqPrevMem k = ⟨k.manufacturer, k.category, k.year, k.quarter - 1⟩) ∧
    (∀ c p : PKey, 1 ≤ c.quarter → c.quarter ≤ 4 → 1 ≤ p.quarter →
       p.quarter ≤ 4 → (qoqJoinSQL c p ↔ p = qoqPrevMem c)) ∧
    (∀ m cat : String, qoqPrevMem ⟨m, cat, 2024, 1⟩ = ⟨m, cat, 2023, 4⟩) := by
  refine ⟨?_, ?_, ?_, ?_⟩
  · rintro ⟨m, c, y, q⟩ h
    simp only at h
    simp [qoqPrevMem, h]
  · rintro ⟨m, c, y, q⟩ h2 h4
    simp only at h2 h4
    have hq : ¬ q = 1 := by omega
    simp [qoqPrevMem, hq]
  · rintro ⟨cm, cc, cy, cq⟩ p hc1 hc4 hp1 hp4
    constructor
    · intro hj
      obtain ⟨pm, pc, py, pq⟩ := p
      obtain ⟨hm, hcat, hrest⟩ := hj
      dsimp only at hm hcat hrest hc1 hc4 hp1 hp4
      by_cases h : cq = 1
      · rcases hrest with ⟨hy, hq⟩ | ⟨hy, hq1, hq4⟩
        · exfalso; omega
        · have h1 : pm = cm := hm.symm
          have h2 : pc = cc := hcat.symm
          have h3 : py = cy - 1 := by omega
          have h4 : pq = 4 := hq4
          subst h1; subst h2; subst h3; subst h4
          simp [qoqPrevMem, h]
      · rcases hrest with ⟨hy, hq⟩ | ⟨hy, hq1, hq4⟩
        · have h1 : pm = cm := hm.symm
          have h2 : pc = cc := hcat.symm
          have h3 : py = cy := hy.symm
          have h4 : pq = cq - 1 := by omega
          subst h1; subst h2; subst h3; subst h4
          simp [qoqPrevMem, h]
        · exact absurd hq1 h
    · rintro rfl
      dsimp only at hc1 hc4
      by_cases h : cq = 1
      · have hp : qoqPrevMem (PKey.mk cm cc cy cq) = PKey.mk cm cc (cy - 1) 4 := by
          simp [qoqPrevMem, h]
        rw [hp]
        refine ⟨rfl, rfl, Or.inr ⟨?_, h, rfl⟩⟩
        dsimp only
        omega
      · have hp : qoqPrevMem (PKey.mk cm cc cy cq) = PKey.mk cm cc cy (cq - 1) := by
          simp [qoqPrevMem, h]
        rw [hp]
        refine ⟨rfl, rfl, Or.inl ⟨rfl, ?_⟩⟩
        dsimp only
        omega
  · intro m cat
    simp [qoqPrevMem]

theorem C3_qoq_alignment_witness :
    ((1 : ℤ) ≤ 1 ∧ (1 : ℤ) ≤ 4 ∧ (1 : ℤ) ≤ 4 ∧ (4 : ℤ) ≤ 4) ∧
    (qoqJoinSQL ⟨"Acme", "2W", 2024, 1⟩ ⟨"Acme", "2W", 2023, 4⟩ ↔
      (⟨"Acme", "2W", 2023, 4⟩ : PKey) =
        qoqPrevMem ⟨"Acme", "2W", 2024, 1⟩) :=
  ⟨by decide,
   C3_qoq_alignment.2.2.1 ⟨"Acme", "2W", 2024, 1⟩ ⟨"Acme", "2W", 2023, 4⟩
     (by decide) (by decide) (by decide) (by decide)⟩

/-- C6: aggregation sums registrations over all rows sharing a
`(manufacturer, category, year, quarter)` key: after aggregation keys are
unique (at most one PeriodPoint per key), every input row's key is
represented (duplicates are summed, never rejected), each PeriodPoint's
value is the sum over its matching rows, and two rows of 100 and 50 for
("Acme","2W",2023,1) aggregate to a single PeriodPoint of 150. -/
theorem C6_duplicate_aggregation :
    (∀ l : List RegRecord, ((aggregate l).map Prod.fst).Nodup) ∧
    (∀ l : List RegRecord, ∀ r ∈ l, keyOf r ∈ (aggregate l).map Prod.fst) ∧
    (∀ (l : List RegRecord) (k : PKey) (s : ℕ),
       (k, s) ∈ aggregate l → s = sumFor l k) ∧
    aggregate [⟨"Acme", "2W", 2023, 1, 100⟩, ⟨"Acme", "2W", 2023, 1, 50⟩] =
      [(⟨"Acme", "2W", 2023, 1⟩, 150)] := by
  refine ⟨?_, ?_, ?_, by decide⟩
  · intro l
    rw [aggregate_map_fst]
    exact List.nodup_dedup _
  · intro l r hr
    rw [aggregate_map_fst]
    exact List.mem_dedup.2 (List.mem_map_of_mem keyOf hr)
  · intro l k s h
    exact (mem_aggregate_iff.1 h).2

theorem C6_duplicate_aggregation_witness :
    ((⟨"Acme", "2W", 2023, 1, 100⟩ : RegRecord) ∈
       [(⟨"Acme", "2W", 2023, 1, 100⟩ : RegRecord),
        ⟨"Acme", "2W", 2023, 1, 50⟩]) ∧
    keyOf ⟨"Acme", "2W", 2023, 1, 100⟩ ∈
      (aggregate [⟨"Acme", "2W", 2023, 1, 100⟩,
        ⟨"Acme", "2W", 2023, 1, 50⟩]).map Prod.fst :=
  ⟨by decide,
   C6_duplicate_aggregation.2.1
     [⟨"Acme", "2W", 2023, 1, 100⟩, ⟨"Acme", "2W", 2023, 1, 50⟩]
     ⟨"Acme", "2W", 2023, 1, 100⟩ (by decide)⟩

/-- C7: `insert_registration_data` discards all previously stored
registration records and inserts the given set, returning the count of
inserted records: after any call the store holds exactly the given records,
regardless of prior contents (and the other table is untouched). -/
theorem C7_insert_replaces_all :
    ∀ (st : DBState) (df : List RegRecord),
      (insert_registration_data st df).1.vehicle_registrations = df ∧
      (insert_registration_data st df).2 = df.length ∧
      (insert_registration_data st df).1.growth_metrics = st.growth_metrics := by
  intro st df
  exact ⟨rfl, rfl, rfl⟩

lemma yoy_valid_pred_rows {l : List RegRecord} {k : PKey} {curr prev : ℕ}
    (hm : (k, curr) ∈ aggregate l)
    (hl : periodLookup l (yoyPrev k) = some prev) (hp : 0 < prev) :
    MemRow.mk k curr
        (PdVal.num (round2pd (((curr : ℚ) - (prev : ℚ)) / (prev : ℚ) * 100))) ∈
      calculate_yoy_growth l ∧
    DbRow.mk k curr (some prev)
        (some (round2sql (((curr : ℚ) - (prev : ℚ)) / (prev : ℚ) * 100))) ∈
      get_yoy_growth_data l := by
  constructor
  · have h := mem_calculate_yoy_growth_iff.2 ⟨(k, curr), hm, rfl⟩
    rwa [hl, pdGrowth_of_pos hp] at h
  · refine mem_get_yoy_growth_data_iff.2 ⟨⟨(k, curr), hm, ?_⟩, by simp⟩
    rw [hl, sqlGrowthCase_of_pos hp]

lemma qoq_valid_pred_rows {l : List RegRecord} {k : PKey} {curr prev : ℕ}
    (hm : (k, curr) ∈ aggregate l)
    (hl : periodLookup l (qoqPrevMem k) = some prev) (hp : 0 < prev) :
    MemRow.mk k curr
        (PdVal.num (round2pd (((curr : ℚ) - (prev : ℚ)) / (prev : ℚ) * 100))) ∈
      calculate_qoq_growth l ∧
    DbRow.mk k curr (some prev)
        (some (round2sql (((curr : ℚ) - (prev : ℚ)) / (prev : ℚ) * 100))) ∈
      get_qoq_growth_data l := by
  constructor
  · have h := mem_calculate_qoq_growth_iff.2 ⟨(k, curr), hm, rfl⟩
    rwa [hl, pdGrowth_of_pos hp] at h
  · have h := mem_qoq_calculations_of_lookup hm
      (qoqPrevMem_mem_qoqSqlPrevKeys k) hl
    rw [sqlGrowthCase_of_pos hp] at h
    exact mem_get_qoq_of_calc h (by simp)

/-- C5: in the unfiltered in-memory computation every PeriodPoint produces an
output GrowthRow (one output row per grouped row; a missing predecessor
yields a row with null growth, never a dropped row), while the
database-backed variant's terminal query returns only rows whose growth
value is not null. -/
theorem C5_null_rows_emitted :
    ∀ l : List RegRecord,
      (calculate_yoy_growth l).length = (aggregate l).length ∧
      (∀ (k : PKey) (s : ℕ), (k, s) ∈ aggregate l →
         MemRow.mk k s (pdGrowth s (periodLookup l (yoyPrev k))) ∈
           calculate_yoy_growth l) ∧
      (∀ (k : PKey) (s : ℕ), (k, s) ∈ aggregate l →
         periodLookup l (yoyPrev k) = none →
         MemRow.mk k s PdVal.nan ∈ calculate_yoy_growth l) ∧
      (∀ r : DbRow, r ∈ get_yoy_growth_data l → r.growth ≠ none) := by
  intro l
  refine ⟨?_, ?_, ?_, ?_⟩
  · unfold calculate_yoy_growth aggregateSorted
    rw [List.length_map, List.length_insertionSort]
  · intro k s h
    exact mem_calculate_yoy_growth_iff.2 ⟨(k, s), h, rfl⟩
  · intro k s h hn
    simpa [hn, pdGrowth] using mem_calculate_yoy_growth_iff.2 ⟨(k, s), h, rfl⟩
  · intro r hr
    exact (mem_get_yoy_growth_data_iff.1 hr).2

theorem C5_null_rows_emitted_witness :
    (((⟨"Acme", "2W", 2023, 1⟩ : PKey), 100) ∈
        aggregate [⟨"Acme", "2W", 2023, 1, 100⟩] ∧
      periodLookup [⟨"Acme", "2W", 2023, 1, 100⟩]
          (yoyPrev ⟨"Acme", "2W", 2023, 1⟩) = none) ∧
    MemRow.mk ⟨"Acme", "2W", 2023, 1⟩ 100 PdVal.nan ∈
      calculate_yoy_growth [⟨"Acme", "2W", 2023, 1, 100⟩] :=
  ⟨⟨by decide, by decide⟩,
   (C5_null_rows_emitted [⟨"Acme", "2W", 2023, 1, 100⟩]).2.2.1
     ⟨"Acme", "2W", 2023, 1⟩ 100 (by decide) (by decide)⟩

/-- C2 counterexample: on the ledger with ("Acme","2W") at 2022-Q1 = 32 and
2023-Q1 = 33 the exact YoY percentage is 3.125; the in-memory backend's
GrowthRow for (2023, Q1) carries 3.12 (pandas `.round(2)` rounds half to
even) while the database backend's row carries 3.13 (SQLite `ROUND` rounds
half away from zero) — aggregation keys are unique (C6), so these are the
backends' values for that PeriodPoint — hence the growth does not equal one
shared `round(·, 2)` under both backends, and the two backends do not agree
bit-for-bit as claimed. -/
theorem C2_counterexample :
    MemRow.mk ⟨"Acme", "2W", 2023, 1⟩ 33 (PdVal.num (312/100)) ∈
      calculate_yoy_growth
        [⟨"Acme", "2W", 2022, 1, 32⟩, ⟨"Acme", "2W", 2023, 1, 33⟩] ∧
    DbRow.mk ⟨"Acme", "2W", 2023, 1⟩ 33 (some 32) (some (313/100)) ∈
      get_yoy_growth_data
        [⟨"Acme", "2W", 2022, 1, 32⟩, ⟨"Acme", "2W", 2023, 1, 33⟩] ∧
    (312/100 : ℚ) ≠ 313/100 := by
  have h := yoy_valid_pred_rows
    (show ((⟨"Acme", "2W", 2023, 1⟩ : PKey), 33) ∈
        aggregate [⟨"Acme", "2W", 2022, 1, 32⟩, ⟨"Acme", "2W", 2023, 1, 33⟩]
      from by decide)
    (show periodLookup [⟨"Acme", "2W", 2022, 1, 32⟩, ⟨"Acme", "2W", 2023, 1, 33⟩]
        (yoyPrev ⟨"Acme", "2W", 2023, 1⟩) = some 32 from by decide)
    (show 0 < 32 from by decide)
  have hc : ((((33 : ℕ) : ℚ) - ((32 : ℕ) : ℚ)) / ((32 : ℕ) : ℚ) * 100) =
      ((33 : ℚ) - 32) / 32 * 100 := by
    push_cast
    ring
  refine ⟨?_, ?_, by norm_num⟩
  · have h1 := h.1
    rw [hc, round2pd_tie] at h1
    exact h1
  · have h2 := h.2
    rw [hc, round2sql_tie] at h2
    exact h2

/-- C2 amended: for every PeriodPoint with an existing previous-year
PeriodPoint of positive registrations, each backend computes its own
correctly-rounded value of the exact percentage ((curr − prev)/prev)·100 —
rounded half to even by the in-memory (pandas) backend and half away from
zero by the database (SQLite) backend; the two rounded values coincide
whenever the scaled percentage is not an exact half-integer, and on the
spec's concrete scenario (prev 1000, curr 1500) both backends produce
exactly 50.00. -/
theorem C2_amended_yoy_rounding :
    (∀ (l : List RegRecord) (k : PKey) (curr prev : ℕ),
       (k, curr) ∈ aggregate l →
       periodLookup l (yoyPrev k) = some prev → 0 < prev →
       MemRow.mk k curr
           (PdVal.num (round2pd (((curr : ℚ) - (prev : ℚ)) / (prev : ℚ) * 100))) ∈
         calculate_yoy_growth l ∧
       DbRow.mk k curr (some prev)
           (some (round2sql (((curr : ℚ) - (prev : ℚ)) / (prev : ℚ) * 100))) ∈
         get_yoy_growth_data l) ∧
    (∀ q : ℚ, q * 100 - (⌊q * 100⌋ : ℚ) ≠ 1/2 → round2pd q = round2sql q) ∧
    round2pd (((1500 : ℚ) - 1000) / 1000 * 100) = 50 ∧
    round2sql (((1500 : ℚ) - 1000) / 1000 * 100) = 50 := by
  refine ⟨?_, ?_, round2pd_fifty, round2sql_fifty⟩
  · intro l k curr prev hm hl hp
    exact yoy_valid_pred_rows hm hl hp
  · intro q hq
    exact round2pd_eq_round2sql hq

theorem C2_amended_yoy_rounding_witness :
    (((⟨"Acme", "2W", 2023, 1⟩ : PKey), 1500) ∈
        aggregate [⟨"Acme", "2W", 2022, 1, 1000⟩, ⟨"Acme", "2W", 2023, 1, 1500⟩] ∧
      periodLookup [⟨"Acme", "2W", 2022, 1, 1000⟩, ⟨"Acme", "2W", 2023, 1, 1500⟩]
          (yoyPrev ⟨"Acme", "2W", 2023, 1⟩) = some 1000 ∧
      0 < 1000) ∧
    (MemRow.mk ⟨"Acme", "2W", 2023, 1⟩ 1500
        (PdVal.num (round2pd ((((1500 : ℕ) : ℚ) - ((1000 : ℕ) : ℚ)) /
          ((1000 : ℕ) : ℚ) * 100))) ∈
      calculate_yoy_growth
        [⟨"Acme", "2W", 2022, 1, 1000⟩, ⟨"Acme", "2W", 2023, 1, 1500⟩] ∧
     DbRow.mk ⟨"Acme", "2W", 2023, 1⟩ 1500 (some 1000)
        (some (round2sql ((((1500 : ℕ) : ℚ) - ((1000 : ℕ) : ℚ)) /
          ((1000 : ℕ) : ℚ) * 100))) ∈
      get_yoy_growth_data
        [⟨"Acme", "2W", 2022, 1, 1000⟩, ⟨"Acme", "2W", 2023, 1, 1500⟩]) :=
  ⟨⟨by decide, by decide, by decide⟩,
   C2_amended_yoy_rounding.1 _ ⟨"Acme", "2W", 2023, 1⟩ 1500 1000
     (by decide) (by decide) (by decide)⟩

/-- One growth row of the database output coerced to the in-memory row
shape: a NULL growth cell reads back as null (pandas `NaN`). -/
def dbRowAsMem (r : DbRow) : MemRow :=
  ⟨r.key, r.registrations,
    match r.growth with
    | some q => PdVal.num q
    | none => PdVal.nan⟩

/-- The property C1 claims of every ledger: the in-memory and the
database-backed computations produce identical GrowthRow sets — the same
rows, the same values, the same null semantics — for the YoY pass and for
the QoQ pass. -/
def backendsProduceSameRows (l : List RegRecord) : Prop :=
  (∀ r : MemRow,
     r ∈ (get_yoy_growth_data l).map dbRowAsMem ↔ r ∈ calculate_yoy_growth l) ∧
  (∀ r : MemRow,
     r ∈ (get_qoq_growth_data l).map dbRowAsMem ↔ r ∈ calculate_qoq_growth l)

/-- C1 counterexample: on the one-row ledger ("Acme","2W",2023,Q1,100) the
in-memory YoY output contains the row with null growth while the
database-backed output is empty, so the two backends do not produce
identical GrowthRow sets. -/
theorem C1_counterexample :
    ¬ backendsProduceSameRows [⟨"Acme", "2W", 2023, 1, 100⟩] := by
  intro h
  have h1 := (h.1 ⟨⟨"Acme", "2W", 2023, 1⟩, 100, PdVal.nan⟩).mpr (by decide)
  rw [show get_yoy_growth_data [⟨"Acme", "2W", 2023, 1, 100⟩] = [] from
    by decide] at h1
  simp at h1

/-- C1 amended: the two backends are not row-set identical (see the
counterexample), but they agree in the following weaker sense: on every
PeriodPoint whose aligned predecessor exists with positive registrations,
both backends emit a GrowthRow for that period — in the YoY pass and in the
QoQ pass — each carrying its own correct rounding of the same exact
percentage (half to even in the in-memory pandas backend, half away from
zero in the SQLite backend); those two values coincide whenever the scaled
percentage is not an exact half-integer, but differ on exact halves — for
32 → 33 the in-memory value is 3.12 and the database value 3.13 — while
rows with null growth (missing predecessor) or infinite growth (zero
predecessor) are emitted in memory and dropped by the database filter. -/
theorem C1_amended_backend_agreement :
    (∀ (l : List RegRecord) (k : PKey) (curr prev : ℕ),
       (k, curr) ∈ aggregate l →
       periodLookup l (yoyPrev k) = some prev → 0 < prev →
       MemRow.mk k curr
           (PdVal.num (round2pd (((curr : ℚ) - (prev : ℚ)) / (prev : ℚ) * 100))) ∈
         calculate_yoy_growth l ∧
       DbRow.mk k curr (some prev)
           (some (round2sql (((curr : ℚ) - (prev : ℚ)) / (prev : ℚ) * 100))) ∈
         get_yoy_growth_data l) ∧
    (∀ (l : List RegRecord) (k : PKey) (curr prev : ℕ),
       (k, curr) ∈ aggregate l →
       periodLookup l (qoqPrevMem k) = some prev → 0 < prev →
       MemRow.mk k curr
           (PdVal.num (round2pd (((curr : ℚ) - (prev : ℚ)) / (prev : ℚ) * 100))) ∈
         calculate_qoq_growth l ∧
       DbRow.mk k curr (some prev)
           (some (round2sql (((curr : ℚ) - (prev : ℚ)) / (prev : ℚ) * 100))) ∈
         get_qoq_growth_data l) ∧
    (∀ q : ℚ, q * 100 - (⌊q * 100⌋ : ℚ) ≠ 1/2 → round2pd q = round2sql q) ∧
    (round2pd (((33 : ℚ) - 32) / 32 * 100) = 312/100 ∧
     round2sql (((33 : ℚ) - 32) / 32 * 100) = 313/100 ∧
     (312/100 : ℚ) ≠ 313/100) := by
  refine ⟨?_, ?_, ?_, round2pd_tie, round2sql_tie, by norm_num⟩
  · intro l k curr prev hm hl hp
    exact yoy_valid_pred_rows hm hl hp
  · intro l k curr prev hm hl hp
    exact qoq_valid_pred_rows hm hl hp
  · intro q hq
    exact round2pd_eq_round2sql hq

theorem C1_amended_backend_agreement_witness :
    (((⟨"Acme", "2W", 2024, 1⟩ : PKey), 600) ∈
        aggregate [⟨"Acme", "2W", 2023, 4, 800⟩, ⟨"Acme", "2W", 2024, 1, 600⟩] ∧
      periodLookup [⟨"Acme", "2W", 2023, 4, 800⟩, ⟨"Acme", "2W", 2024, 1, 600⟩]
          (qoqPrevMem ⟨"Acme", "2W", 2024, 1⟩) = some 800 ∧
      0 < 800) ∧
    (MemRow.mk ⟨"Acme", "2W", 2024, 1⟩ 600
        (PdVal.num (round2pd ((((600 : ℕ) : ℚ) - ((800 : ℕ) : ℚ)) /
          ((800 : ℕ) : ℚ) * 100))) ∈
      calculate_qoq_growth
        [⟨"Acme", "2W", 2023, 4, 800⟩, ⟨"Acme", "2W", 2024, 1, 600⟩] ∧
     DbRow.mk ⟨"Acme", "2W", 2024, 1⟩ 600 (some 800)
        (some (round2sql ((((600 : ℕ) : ℚ) - ((800 : ℕ) : ℚ)) /
          ((800 : ℕ) : ℚ) * 100))) ∈
      get_qoq_growth_data
        [⟨"Acme", "2W", 2023, 4, 800⟩, ⟨"Acme", "2W", 2024, 1, 600⟩]) :=
  ⟨⟨by decide, by decide, by decide⟩,
   C1_amended_backend_agreement.2.1
     [⟨"Acme", "2W", 2023, 4, 800⟩, ⟨"Acme", "2W", 2024, 1, 600⟩]
     ⟨"Acme", "2W", 2024, 1⟩ 600 800 (by decide) (by decide) (by decide)⟩

/-- C4 counterexample: on the ledger with ("Acme","2W",2022,Q1) having 0
registrations and ("Acme","2W",2023,Q1) having 100, the in-memory YoY
computation emits the 2023 row with growth +infinity — not null — so the
zero-predecessor growth is not null under both backends. -/
theorem C4_counterexample :
    MemRow.mk ⟨"Acme", "2W", 2023, 1⟩ 100 PdVal.inf ∈
      calculate_yoy_growth
        [⟨"Acme", "2W", 2022, 1, 0⟩, ⟨"Acme", "2W", 2023, 1, 100⟩] ∧
    PdVal.inf ≠ PdVal.nan := by
  exact ⟨by decide, by decide⟩

/-- C4 amended: when the aligned predecessor PeriodPoint has registrations
equal to 0, the database backend computes NULL (its CASE guard) and its
terminal query omits the period's row entirely, while the in-memory backend
emits the row with an IEEE-division value — +infinity when the current
registrations are positive, NaN when they are 0 — rather than a guarded
null (shown for the YoY pass; the QoQ pass uses the same expressions with
the quarter-wraparound key). -/
theorem C4_amended_zero_predecessor :
    ∀ (l : List RegRecord) (k : PKey) (curr : ℕ),
      (k, curr) ∈ aggregate l → periodLookup l (yoyPrev k) = some 0 →
      sqlGrowthCase curr (some 0) = none ∧
      (∀ r ∈ get_yoy_growth_data l, r.key ≠ k) ∧
      MemRow.mk k curr (if curr = 0 then PdVal.nan else PdVal.inf) ∈
        calculate_yoy_growth l := by
  intro l k curr hm hl
  refine ⟨by simp [sqlGrowthCase], ?_, ?_⟩
  · intro r hr
    obtain ⟨⟨ks, hks, rfl⟩, hne⟩ := mem_get_yoy_growth_data_iff.1 hr
    dsimp only
    intro hk
    rw [hk, hl] at hne
    exact hne (by simp [sqlGrowthCase])
  · have h := mem_calculate_yoy_growth_iff.2 ⟨(k, curr), hm, rfl⟩
    rw [hl] at h
    simpa [pdGrowth] using h

theorem C4_amended_zero_predecessor_witness :
    (((⟨"Acme", "2W", 2023, 1⟩ : PKey), 100) ∈
        aggregate [⟨"Acme", "2W", 2022, 1, 0⟩, ⟨"Acme", "2W", 2023, 1, 100⟩] ∧
      periodLookup [⟨"Acme", "2W", 2022, 1, 0⟩, ⟨"Acme", "2W", 2023, 1, 100⟩]
          (yoyPrev ⟨"Acme", "2W", 2023, 1⟩) = some 0) ∧
    (sqlGrowthCase 100 (some 0) = none ∧
     (∀ r ∈ get_yoy_growth_data
          [⟨"Acme", "2W", 2022, 1, 0⟩, ⟨"Acme", "2W", 2023, 1, 100⟩],
        r.key ≠ ⟨"Acme", "2W", 2023, 1⟩) ∧
     MemRow.mk ⟨"Acme", "2W", 2023, 1⟩ 100
         (if (100 : ℕ) = 0 then PdVal.nan else PdVal.inf) ∈
       calculate_yoy_growth
         [⟨"Acme", "2W", 2022, 1, 0⟩, ⟨"Acme", "2W", 2023, 1, 100⟩]) :=
  ⟨⟨by decide, by decide⟩,
   C4_amended_zero_predecessor
     [⟨"Acme", "2W", 2022, 1, 0⟩, ⟨"Acme", "2W", 2023, 1, 100⟩]
     ⟨"Acme", "2W", 2023, 1⟩ 100 (by decide) (by decide)⟩

instance : IsTotal (String × ℕ × ℕ) totalsDescLeR :=
  ⟨fun a b => Nat.le_total b.2.1 a.2.1⟩

instance : IsTrans (String × ℕ × ℕ) totalsDescLeR :=
  ⟨fun _ _ _ h1 h2 => Nat.le_trans h2 h1⟩

/-- C8: `get_top_performers` with the registrations metric ranks
manufacturers by total summed registrations across all categories and all
stored periods, in descending order, truncated to the given limit; on three
manufacturers with totals A:500, B:900, C:300 and limit 2 it returns B then
A. -/
theorem C8_top_performers_db :
    (∀ (l : List RegRecord) (limit : ℕ),
       (get_top_performers l limit).Sorted totalsDescLeR ∧
       (∀ x ∈ get_top_performers l limit,
          x.2.1 = totalFor l x.1 ∧ x.1 ∈ manufacturersOf l) ∧
       (get_top_performers l limit).length =
         min limit (manufacturersOf l).length) ∧
    get_top_performers
        [⟨"A", "2W", 2022, 1, 200⟩, ⟨"A", "4W", 2023, 2, 300⟩,
         ⟨"B", "2W", 2023, 1, 900⟩, ⟨"C", "2W", 2022, 3, 300⟩] 2 =
      [("B", 900, 1), ("A", 500, 2)] := by
  refine ⟨?_, by decide⟩
  intro l limit
  refine ⟨?_, ?_, ?_⟩
  · exact List.Pairwise.sublist (List.take_sublist _ _)
      (List.sorted_insertionSort totalsDescLeR (manufacturerTotals l))
  · intro x hx
    have hx1 : x ∈ (manufacturerTotals l).insertionSort totalsDescLeR :=
      (List.take_sublist _ _).subset hx
    have hx2 : x ∈ manufacturerTotals l :=
      (List.mem_insertionSort totalsDescLeR).1 hx1
    obtain ⟨m, hm, rfl⟩ := List.mem_map.1 hx2
    exact ⟨rfl, hm⟩
  · simp [get_top_performers, manufacturerTotals, List.length_take,
      List.length_insertionSort]

theorem C8_top_performers_db_witness :
    (("B", 900, 1) ∈
        get_top_performers
          [⟨"A", "2W", 2022, 1, 200⟩, ⟨"A", "4W", 2023, 2, 300⟩,
           ⟨"B", "2W", 2023, 1, 900⟩, ⟨"C", "2W", 2022, 3, 300⟩] 2) ∧
    ((("B", 900, 1) : String × ℕ × ℕ).2.1 =
        totalFor
          [⟨"A", "2W", 2022, 1, 200⟩, ⟨"A", "4W", 2023, 2, 300⟩,
           ⟨"B", "2W", 2023, 1, 900⟩, ⟨"C", "2W", 2022, 3, 300⟩] "B" ∧
      "B" ∈ manufacturersOf
          [⟨"A", "2W", 2022, 1, 200⟩, ⟨"A", "4W", 2023, 2, 300⟩,
           ⟨"B", "2W", 2023, 1, 900⟩, ⟨"C", "2W", 2022, 3, 300⟩]) :=
  ⟨by decide,
   (C8_top_performers_db.1
       [⟨"A", "2W", 2022, 1, 200⟩, ⟨"A", "4W", 2023, 2, 300⟩,
        ⟨"B", "2W", 2023, 1, 900⟩, ⟨"C", "2W", 2022, 3, 300⟩] 2).2.1
     ("B", 900, 1) (by decide)⟩

lemma latestData_facts {l : List RegRecord} (h : l ≠ []) :
    latestData l ≠ [] ∧
    latestYear (latestData l) = latestYear l ∧
    latestQuarter (latestData l) = latestQuarter l ∧
    latestData (latestData l) = latestData l := by
  have hne : l.map RegRecord.year ≠ [] := by
    intro hc
    exact h (List.map_eq_nil_iff.1 hc)
  obtain ⟨ym, hym⟩ := WithBot.ne_bot_iff_exists.1
    (List.maximum_ne_bot_of_ne_nil hne)
  have hymax : latestYear l = (ym : WithBot ℤ) := hym.symm
  obtain ⟨ry, hry, hryy⟩ := List.mem_map.1 (List.maximum_mem hym.symm)
  have hfy : ry ∈ l.filter (fun r => (r.year : WithBot ℤ) = latestYear l) := by
    rw [List.mem_filter]
    exact ⟨hry, by simp [hryy, hymax]⟩
  have hfyne :
      (l.filter (fun r => (r.year : WithBot ℤ) = latestYear l)).map
          RegRecord.quarter ≠ [] := by
    intro hc
    rw [List.map_eq_nil_iff] at hc
    rw [hc] at hfy
    exact absurd hfy (List.not_mem_nil _)
  obtain ⟨qm, hqm⟩ := WithBot.ne_bot_iff_exists.1
    (List.maximum_ne_bot_of_ne_nil hfyne)
  have hqmax : latestQuarter l = (qm : WithBot ℤ) := hqm.symm
  obtain ⟨r0, hr0f, hr0q⟩ := List.mem_map.1 (List.maximum_mem hqm.symm)
  rw [List.mem_filter] at hr0f
  obtain ⟨hr0l, hr0y⟩ := hr0f
  have hr0y' : (r0.year : WithBot ℤ) = latestYear l := by simpa using hr0y
  have hr0mem : r0 ∈ latestData l := by
    rw [latestData, List.mem_filter]
    refine ⟨hr0l, ?_⟩
    simp only [decide_eq_true_eq]
    exact ⟨hr0y', by simp [hqmax, hr0q]⟩
  have hall : ∀ r ∈ latestData l, r.year = ym ∧ r.quarter = qm := by
    intro r hr
    rw [latestData, List.mem_filter] at hr
    obtain ⟨-, hcond⟩ := hr
    simp only [decide_eq_true_eq] at hcond
    rw [hymax, hqmax] at hcond
    exact ⟨WithBot.coe_inj.1 hcond.1, WithBot.coe_inj.1 hcond.2⟩
  have hLDne : latestData l ≠ [] := List.ne_nil_of_mem hr0mem
  have hly : latestYear (latestData l) = (ym : WithBot ℤ) := by
    rw [latestYear, List.maximum_eq_coe_iff]
    constructor
    · exact List.mem_map.2 ⟨r0, hr0mem, (hall r0 hr0mem).1⟩
    · intro a ha
      obtain ⟨r, hrm, rfl⟩ := List.mem_map.1 ha
      exact le_of_eq (hall r hrm).1
  have hfilt :
      (latestData l).filter
          (fun r => (r.year : WithBot ℤ) = latestYear (latestData l)) =
        latestData l := by
    rw [List.filter_eq_self]
    intro r hr
    simp [hly, (hall r hr).1]
  have hlq : latestQuarter (latestData l) = (qm : WithBot ℤ) := by
    rw [latestQuarter, hfilt, List.maximum_eq_coe_iff]
    constructor
    · exact List.mem_map.2 ⟨r0, hr0mem, (hall r0 hr0mem).2⟩
    · intro a ha
      obtain ⟨r, hrm, rfl⟩ := List.mem_map.1 ha
      exact le_of_eq (hall r hrm).2
  refine ⟨hLDne, hly.trans hymax.symm, hlq.trans hqmax.symm, ?_⟩
  show latestData (latestData l) = latestData l
  rw [latestData, List.filter_eq_self]
  intro r hr
  have hc := hall r hr
  simp only [decide_eq_true_eq]
  exact ⟨by simp [hly, hc.1], by simp [hlq, hc.2]⟩

/-- C10: the in-memory `get_top_performers` ranks manufacturers by
registrations summed only over the single latest period in the ledger (the
maximum year, and within it the maximum quarter): for every non-empty
ledger its result equals the result on the latest-period rows alone, every
reported value is the manufacturer's latest-period sum, and on a concrete
ledger whose all-period leader differs from its latest-period leader the
latest-period ranking is returned. -/
theorem C10_top_performers_latest_period :
    (∀ (l : List RegRecord) (n : ℕ), l ≠ [] →
       get_top_performers_mem l n = get_top_performers_mem (latestData l) n ∧
       (∀ x ∈ get_top_performers_mem l n,
          x.2 = totalFor (latestData l) x.1)) ∧
    get_top_performers_mem
        [⟨"M1", "2W", 2022, 1, 1000⟩, ⟨"M1", "2W", 2023, 1, 10⟩,
         ⟨"M2", "2W", 2023, 1, 50⟩] 5 =
      [("M2", 50), ("M1", 10)] := by
  refine ⟨?_, by decide⟩
  intro l n h
  obtain ⟨-, -, -, hfix⟩ := latestData_facts h
  constructor
  · unfold get_top_performers_mem
    rw [hfix]
  · intro x hx
    have hx1 : x ∈ manufacturerSumsDesc (latestData l) :=
      (List.take_sublist _ _).subset hx
    have hx2 : x ∈ (manufacturersOf (latestData l)).map
        (fun m => (m, totalFor (latestData l) m)) :=
      (List.mem_insertionSort sumDescLeR).1 hx1
    obtain ⟨m, hm, rfl⟩ := List.mem_map.1 hx2
    rfl

theorem C10_top_performers_latest_period_witness :
    (([⟨"M1", "2W", 2022, 1, 1000⟩, ⟨"M1", "2W", 2023, 1, 10⟩,
       ⟨"M2", "2W", 2023, 1, 50⟩] : List RegRecord) ≠ [] ∧
      ("M2", 50) ∈ get_top_performers_mem
        [⟨"M1", "2W", 2022, 1, 1000⟩, ⟨"M1", "2W", 2023, 1, 10⟩,
         ⟨"M2", "2W", 2023, 1, 50⟩] 5) ∧
    get_top_performers_mem
        [⟨"M1", "2W", 2022, 1, 1000⟩, ⟨"M1", "2W", 2023, 1, 10⟩,
         ⟨"M2", "2W", 2023, 1, 50⟩] 5 =
      get_top_performers_mem
        (latestData
          [⟨"M1", "2W", 2022, 1, 1000⟩, ⟨"M1", "2W", 2023, 1, 10⟩,
           ⟨"M2", "2W", 2023, 1, 50⟩]) 5 ∧
    (("M2", 50) : String × ℕ).2 =
      totalFor
        (latestData
          [⟨"M1", "2W", 2022, 1, 1000⟩, ⟨"M1", "2W", 2023, 1, 10⟩,
           ⟨"M2", "2W", 2023, 1, 50⟩]) "M2" :=
  ⟨⟨by decide, by decide⟩,
   (C10_top_performers_latest_period.1
       [⟨"M1", "2W", 2022, 1, 1000⟩, ⟨"M1", "2W", 2023, 1, 10⟩,
        ⟨"M2", "2W", 2023, 1, 50⟩] 5 (by decide)).1,
   (C10_top_performers_latest_period.1
       [⟨"M1", "2W", 2022, 1, 1000⟩, ⟨"M1", "2W", 2023, 1, 10⟩,
        ⟨"M2", "2W", 2023, 1, 50⟩] 5 (by decide)).2
     ("M2", 50) (by decide)⟩

lemma generate_insights_body_ne_nil (l : List RegRecord) :
    generate_insights_body l ≠ [] := by
  unfold generate_insights_body
  intro hc
  revert hc
  show ¬ (if _ = ([] : List String) then _ else _) = []
  split
  · simp
  · next h => exact h

/-- C9: `generate_insights` is total over its input: the whole computation
body sits behind a handler whose error branch degrades to the single
diagnostic insight (in this embedding the typed body never errors, so the
result is always its `.ok` list), it returns exactly the one "no data"
placeholder on an absent or empty input set, and it never returns an empty
result — in particular not for a non-empty input. -/
theorem C9_generate_insights_total :
    generate_insights none = ["No data available for analysis."] ∧
    generate_insights (some []) = ["No data available for analysis."] ∧
    (∀ df : Option (List RegRecord), generate_insights df ≠ []) ∧
    (∀ l : List RegRecord, l ≠ [] → generate_insights (some l) ≠ []) := by
  have hcore : ∀ l : List RegRecord, l ≠ [] → generate_insights (some l) ≠ [] := by
    intro l h
    simp only [generate_insights, if_neg h, generate_insights_core]
    exact generate_insights_body_ne_nil l
  refine ⟨rfl, rfl, ?_, hcore⟩
  intro df
  match df with
  | none => simp [generate_insights]
  | some l =>
      by_cases h : l = []
      · simp [generate_insights, h]
      · exact hcore l h

theorem C9_generate_insights_total_witness :
    (([⟨"Acme", "2W", 2023, 1, 10⟩] : List RegRecord) ≠ []) ∧
    generate_insights (some [⟨"Acme", "2W", 2023, 1, 10⟩]) ≠ [] :=
  ⟨by decide,
   C9_generate_insights_total.2.2.2 [⟨"Acme", "2W", 2023, 1, 10⟩] (by decide)⟩
